import Mathlib

/-!
Verification of the aiseg2-bridge scrape-extract-publish pipeline.

The definitions below are a shallow embedding of the Python sources:
  - `aiseg2_publish.py` (standalone MQTT publisher),
  - `custom_components/aiseg2_bridge/__init__.py` (Home Assistant integration).
Machine floats are modelled as exact rationals (the decimal literals that
occur are represented exactly); Python exceptions are modelled as
`Except`/`Option` results; the MQTT session is modelled as the list of
messages handed to the broker, in publish order.
-/

namespace Aiseg2

/-! ### Numeric extraction

Embedding of `_to_float` (both copies) and `_validate_energy_value`.
The regex `([0-9]+(?:\.[0-9]+)?)` is modelled by `numSearch`: scan left to
right for the first ASCII digit, take the maximal digit run, then an
optional fractional part `.[0-9]+` (greedy), exactly the leftmost match
of the pattern.  `float()` applied to a matched group is modelled by
`decimalVal` (exact rational value of the decimal literal).
-/

/-- Python `s.replace(a, b)` for single characters. -/
def pyReplaceChar (s : List Char) (a b : Char) : List Char :=
  s.map fun c => if c = a then b else c

/-- Python `s.replace(a, '')` for a single character. -/
def pyRemoveChar (s : List Char) (a : Char) : List Char :=
  s.filter fun c => ¬ (c = a)

/-- The common normalisation pipeline of `_to_float`:
`s.replace('，', ',').replace('．', '.').replace(',', '')`. -/
def normNumText (s : List Char) : List Char :=
  pyRemoveChar (pyReplaceChar (pyReplaceChar s '，' ',') '．' '.') ','

/-- Value of a digit character. -/
def digitVal (c : Char) : Nat := c.toNat - '0'.toNat

/-- Numeric value of a digit string (e.g. `['1','2'] ↦ 12`). -/
def digitsToNat (ds : List Char) : Nat :=
  ds.foldl (fun n c => 10 * n + digitVal c) 0

/-- Greedy match of `[0-9]+(?:\.[0-9]+)?` at the current position, which is
known to start with a digit: returns integer digits and fraction digits. -/
def numMatchAt (s : List Char) : List Char × List Char :=
  let ip := s.takeWhile Char.isDigit
  let rest := s.dropWhile Char.isDigit
  match rest with
  | '.' :: r2 =>
    if (r2.takeWhile Char.isDigit).isEmpty then (ip, [])
    else (ip, r2.takeWhile Char.isDigit)
  | _ => (ip, [])

/-- `re.search` of `([0-9]+(?:\.[0-9]+)?)`: leftmost match, or `none`. -/
def numSearch : List Char → Option (List Char × List Char)
  | [] => none
  | c :: rest => if c.isDigit then some (numMatchAt (c :: rest)) else numSearch rest

/-- Exact value of the decimal literal with integer digits `ip` and
fraction digits `fp` (the value `float(m.group(1))` rounds to). -/
def decimalVal (ip fp : List Char) : ℚ :=
  (digitsToNat ip : ℚ) + (digitsToNat fp : ℚ) / (10 : ℚ) ^ fp.length

/-- The pre-validation value computed inside `_to_float`:
`float(m.group(1)) if m else 0.0`, after normalisation. -/
def rawExtract (s : String) : ℚ :=
  match numSearch (normNumText s.data) with
  | none => 0
  | some (ip, fp) => decimalVal ip fp

/-- `_validate_energy_value` of the Home Assistant integration. -/
def validate_energy_value (v : ℚ) : ℚ :=
  if v < 0 then 0
  else if 999999 < v then 0
  else v

/-- `_to_float` of `custom_components/aiseg2_bridge/__init__.py`:
empty/missing input yields `0.0`; otherwise normalise, search, validate. -/
def to_float (s : String) : ℚ :=
  if s.data = [] then 0
  else validate_energy_value (rawExtract s)

/-- `_to_float` of `aiseg2_publish.py`: identical pipeline but with no
validation step. -/
def to_float_pub (s : String) : ℚ :=
  if s.data = [] then 0
  else rawExtract s

/-- `_validate_energy_value` with the negative-value clamp branch removed
(used to state that this branch is unreachable from `_to_float`). -/
def validate_no_neg (v : ℚ) : ℚ :=
  if 999999 < v then 0 else v

/-- `to_float` recomputed with the negative branch removed. -/
def to_float_no_neg (s : String) : ℚ :=
  if s.data = [] then 0
  else validate_no_neg (rawExtract s)

/-! ### Retry coordinator

Embedding of `AiSeg2DataUpdateCoordinator._fetch_with_retry`:
`for attempt in range(max_retries): try: return fetch_func() except:
if attempt == max_retries - 1: raise; sleep; backoff`.
The operation is modelled by its per-attempt outcomes `op : Nat → Except E A`
(attempt `i` is `op i`).  The result records the outcome together with the
index of the final attempt performed (the code logs this index as the number
of retries consumed on success).  `none` models the `return None` fall
through when `max_retries = 0` (the loop body never runs).
-/

/-- The retry loop at attempt index `attempt` with `remaining` loop
iterations left (`remaining = maxRetries - attempt`; the `for` loop runs
`maxRetries` times in total). -/
def retryLoop {E A : Type} (op : Nat → Except E A) (maxRetries attempt : Nat) :
    Nat → Option (Except E A × Nat)
  | 0 => none
  | remaining + 1 =>
    match op attempt with
    | .ok a => some (.ok a, attempt)
    | .error e =>
      if attempt = maxRetries - 1 then some (.error e, attempt)
      else retryLoop op maxRetries (attempt + 1) remaining

/-- `_fetch_with_retry fetch_func description max_retries`. -/
def fetch_with_retry {E A : Type} (op : Nat → Except E A) (maxRetries : Nat) :
    Option (Except E A × Nat) :=
  retryLoop op maxRetries 0 maxRetries

/-- The failure taxonomy of the spec: authentication (terminal) versus
transient network failures.  `_fetch_with_retry` receives both through
the same `except Exception` clause. -/
inductive FetchErr where
  | auth : FetchErr
  | transient : FetchErr
deriving DecidableEq, Repr

/-! ### JSON values and `json.loads`

`Json` models the values produced by Python's `json.loads` on the payloads
this program handles.  Numbers are modelled as integers (the circuit
catalog payload carries its numeric data as strings; fractional or
exponent number literals are rejected by this parser subset, and `\uXXXX`
string escapes are not decoded).  `jsonLoads` is a recursive-descent
parser over the character list, with a fuel argument for termination;
`jsonLoads` supplies enough fuel for any input.  A `.error` result models
`json.loads` raising `JSONDecodeError`.
-/

inductive Json where
  | null : Json
  | bool (b : Bool) : Json
  | num (i : Int) : Json
  | str (s : String) : Json
  | arr (items : List Json) : Json
  | obj (fields : List (String × Json)) : Json

/-- JSON whitespace. -/
def isJsonWs (c : Char) : Bool :=
  c = ' ' ∨ c = '\n' ∨ c = '\t' ∨ c = '\r'

/-- Skip leading whitespace. -/
def skipWs (s : List Char) : List Char :=
  s.dropWhile isJsonWs

/-- Minimal JSON string escape decoding. -/
def jsonEsc (c : Char) : Char :=
  if c = 'n' then '\n'
  else if c = 't' then '\t'
  else if c = 'r' then '\r'
  else c

/-- Parse the body of a string literal (after the opening quote), up to the
closing quote. -/
def parseStrChars : List Char → Option (List Char × List Char)
  | [] => none
  | '"' :: rest => some ([], rest)
  | '\\' :: c :: rest =>
    (parseStrChars rest).map fun p => (jsonEsc c :: p.1, p.2)
  | c :: rest => (parseStrChars rest).map fun p => (c :: p.1, p.2)

/-- Parse a nonempty digit run as a natural number. -/
def parseNatLit (s : List Char) : Option (Nat × List Char) :=
  let ds := s.takeWhile Char.isDigit
  if ds.isEmpty then none else some (digitsToNat ds, s.dropWhile Char.isDigit)

mutual

/-- Parse one JSON value. -/
def parseVal : Nat → List Char → Option (Json × List Char)
  | 0, _ => none
  | fuel + 1, s =>
    match skipWs s with
    | '{' :: rest =>
      (match skipWs rest with
       | '}' :: r2 => some (.obj [], r2)
       | _ => (parseMembers fuel rest).map fun p => (.obj p.1, p.2))
    | '[' :: rest =>
      (match skipWs rest with
       | ']' :: r2 => some (.arr [], r2)
       | _ => (parseItems fuel rest).map fun p => (.arr p.1, p.2))
    | '"' :: rest => (parseStrChars rest).map fun p => (.str (String.mk p.1), p.2)
    | 't' :: 'r' :: 'u' :: 'e' :: rest => some (.bool true, rest)
    | 'f' :: 'a' :: 'l' :: 's' :: 'e' :: rest => some (.bool false, rest)
    | 'n' :: 'u' :: 'l' :: 'l' :: rest => some (.null, rest)
    | '-' :: rest => (parseNatLit rest).map fun p => (.num (-(p.1 : Int)), p.2)
    | c :: rest =>
      if c.isDigit then (parseNatLit (c :: rest)).map fun p => (.num (p.1 : Int), p.2)
      else none
    | [] => none

/-- Parse the nonempty member list of an object, consuming the closing
brace. -/
def parseMembers : Nat → List Char → Option (List (String × Json) × List Char)
  | 0, _ => none
  | fuel + 1, s =>
    match skipWs s with
    | '"' :: rest =>
      match parseStrChars rest with
      | none => none
      | some (key, r1) =>
        match skipWs r1 with
        | ':' :: r2 =>
          match parseVal fuel r2 with
          | none => none
          | some (v, r3) =>
            match skipWs r3 with
            | ',' :: r4 =>
              (parseMembers fuel r4).map fun p => ((String.mk key, v) :: p.1, p.2)
            | '}' :: r4 => some ([(String.mk key, v)], r4)
            | _ => none
        | _ => none
    | _ => none

/-- Parse the nonempty item list of an array, consuming the closing
bracket. -/
def parseItems : Nat → List Char → Option (List Json × List Char)
  | 0, _ => none
  | fuel + 1, s =>
    match parseVal fuel s with
    | none => none
    | some (v, r1) =>
      match skipWs r1 with
      | ',' :: r2 => (parseItems fuel r2).map fun p => (v :: p.1, p.2)
      | ']' :: r2 => some ([v], r2)
      | _ => none

end

/-- `json.loads`: parse a complete document; anything but a single JSON
value surrounded by whitespace is a `JSONDecodeError`. -/
def jsonLoads (s : String) : Except String Json :=
  match parseVal (s.data.length + 1) s.data with
  | some (j, rest) => if (skipWs rest).isEmpty then .ok j else .error "JSONDecodeError"
  | none => .error "JSONDecodeError"

/-! ### Circuit catalog decoding

Embedding of `fetch_circuit_catalog` (identical in `aiseg2_publish.py` and
the Home Assistant integration) from the point where the HTTP response has
been turned into the list of `<script>` texts matching the
`window.onload` content signature (`scripts`; `none` models a script
element whose `.text` is `None`).  A `.error` result models an uncaught
Python exception escaping the function.
-/

/-- A catalog entry as returned: `{"id": ..., "name": ...}`. -/
structure Circuit where
  id : String
  name : String
deriving DecidableEq, Repr

/-- Python `str.find(ch)`: first index or `-1`. -/
def pyFind (s : List Char) (c : Char) : Int :=
  match s.findIdx? (fun x => x = c) with
  | some i => (i : Int)
  | none => -1

/-- Python `str.rfind(ch)`: last index or `-1`. -/
def pyRFind (s : List Char) (c : Char) : Int :=
  match s.reverse.findIdx? (fun x => x = c) with
  | some i => ((s.length - 1 - i : Nat) : Int)
  | none => -1

/-- Python `str.strip()`. -/
def pyStrip (s : List Char) : List Char :=
  ((s.dropWhile Char.isWhitespace).reverse.dropWhile Char.isWhitespace).reverse

/-- Python `str(x)` on a value obtained from `dict.get` on decoded JSON
(`None` included); the `arr`/`obj` cases abbreviate Python's repr and are
not exercised by catalog payloads. -/
def pyStr (o : Option Json) : String :=
  match o with
  | none => "None"
  | some .null => "None"
  | some (.bool true) => "True"
  | some (.bool false) => "False"
  | some (.num i) => toString i
  | some (.str s) => s
  | some (.arr _) => "<list>"
  | some (.obj _) => "<dict>"

/-- Python truthiness of a decoded JSON value. -/
def jsonTruthy (j : Json) : Bool :=
  match j with
  | .null => false
  | .bool b => b
  | .num i => ¬ (i = 0)
  | .str s => ¬ (s = "")
  | .arr items => ¬ items.isEmpty
  | .obj fields => ¬ fields.isEmpty

/-- The test `c.get('strBtnType') == "1"` on an entry's fields. -/
def isBtnOne (f : List (String × Json)) : Bool :=
  match f.lookup "strBtnType" with
  | some (.str s) => s = "1"
  | _ => false

/-- The descriptor built from a retained entry:
`cid = str(c.get('strId'))`;
`name = str(c.get('strCircuit') or f"Circuit {cid}")`. -/
def mkCircuit (f : List (String × Json)) : Circuit :=
  let cid := pyStr (f.lookup "strId")
  let name :=
    match f.lookup "strCircuit" with
    | some v => if jsonTruthy v then pyStr (some v) else "Circuit " ++ cid
    | none => "Circuit " ++ cid
  ⟨cid, name⟩

/-- One iteration of the catalog loop body: a non-dict entry raises
(`AttributeError` on `.get`); a `"1"`-flagged dict yields a descriptor. -/
def entryToCircuit (c : Json) : Except String (Option Circuit) :=
  match c with
  | .obj f => if isBtnOne f then .ok (some (mkCircuit f)) else .ok none
  | _ => .error "AttributeError"

/-- The catalog loop over `data.get('arrayCircuitNameList', [])`. -/
def circuitsOfEntries : List Json → Except String (List Circuit)
  | [] => .ok []
  | c :: rest =>
    match entryToCircuit c with
    | .error e => .error e
    | .ok o =>
      match circuitsOfEntries rest with
      | .error e => .error e
      | .ok tl => .ok (match o with | some x => x :: tl | none => tl)

/-- From the decoded payload to the circuit list: `data.get` raises unless
`data` is a dict; iterating a value that is not a list is modelled as a
`TypeError` (string/dict iteration, unused on real payloads, would also end
in an uncaught error). -/
def catalogFromJson (data : Json) : Except String (List Circuit) :=
  match data with
  | .obj fields =>
    (match (fields.lookup "arrayCircuitNameList").getD (.arr []) with
     | .arr entries => circuitsOfEntries entries
     | _ => .error "TypeError")
  | _ => .error "AttributeError"

/-- `text[l+1:rpos].strip()`: the parenthesised argument handed to
`json.loads`. -/
def extractedArg (text : List Char) (l rpos : Int) : String :=
  String.mk (pyStrip ((text.drop (l.toNat + 1)).take (rpos.toNat - (l.toNat + 1))))

/-- `fetch_circuit_catalog`, from the extracted `window.onload` script
texts on: no script or no parenthesised argument yields `[]`; otherwise the
substring strictly between the first `(` and the last `)` is stripped and
passed to `json.loads`, whose failure propagates. -/
def fetch_circuit_catalog (scripts : List (Option String)) :
    Except String (List Circuit) :=
  match scripts with
  | [] => .ok []
  | s0 :: _ =>
    let text := (s0.getD "").data
    let l := pyFind text '('
    let rpos := pyRFind text ')'
    if l < 0 ∨ rpos ≤ l then .ok []
    else
      match jsonLoads (extractedArg text l rpos) with
      | .error e => .error e
      | .ok data => catalogFromJson data

/-! ### Topics and discovery documents (`aiseg2_publish.py`)

`mqttPre` is the `MQTT_PREFIX` setting, `uid` the `DEVICE_ID`.  A sensor
of one run is either one of the four fixed totals keys or a circuit id.
-/

/-- The four totals keys produced by `fetch_totals`. -/
inductive TotalKey where
  | totalUse : TotalKey
  | buy : TotalKey
  | sell : TotalKey
  | gen : TotalKey
deriving DecidableEq, Repr

/-- The dictionary key string of a totals key. -/
def keyName : TotalKey → String
  | .totalUse => "total_use_kwh"
  | .buy => "buy_kwh"
  | .sell => "sell_kwh"
  | .gen => "gen_kwh"

/-- A sensor identity of one run. -/
inductive Sensor where
  | total (k : TotalKey) : Sensor
  | circuit (cid : String) : Sensor
deriving DecidableEq, Repr

/-- `availability_topic`. -/
def availability_topic (mqttPre uid : String) : String :=
  mqttPre ++ "/aiseg2/" ++ uid ++ "/availability"

/-- `meta_topic`. -/
def meta_topic (mqttPre uid : String) : String :=
  mqttPre ++ "/aiseg2/" ++ uid ++ "/meta"

/-- `energy_state_topic uid key`. -/
def energy_state_topic (mqttPre uid key : String) : String :=
  mqttPre ++ "/aiseg2/" ++ uid ++ "/" ++ key ++ "/state"

/-- `circuit_state_topic uid cid`. -/
def circuit_state_topic (mqttPre uid cid : String) : String :=
  mqttPre ++ "/aiseg2/" ++ uid ++ "/c" ++ cid ++ "/kwh/state"

/-- The `uniq_id` of a sensor: `f"{uid}_{key}"` resp. `f"{uid}_c{cid}_kwh"`. -/
def uniqId (uid : String) : Sensor → String
  | .total k => uid ++ "_" ++ keyName k
  | .circuit cid => uid ++ "_c" ++ cid ++ "_kwh"

/-- The discovery/config topic of a sensor:
`f"{MQTT_PREFIX}/sensor/{uniq}/config"`. -/
def config_topic (mqttPre uid : String) (s : Sensor) : String :=
  mqttPre ++ "/sensor/" ++ uniqId uid s ++ "/config"

/-- The state topic of a sensor. -/
def state_topic (mqttPre uid : String) : Sensor → String
  | .total k => energy_state_topic mqttPre uid (keyName k)
  | .circuit cid => circuit_state_topic mqttPre uid cid

/-- The discovery/config document body (the dict passed to `json.dumps`
in `publish_discovery_energy` / `publish_discovery_circuit`). -/
structure ConfigDoc where
  name : String
  object_id : String
  uniq_id : String
  dev_ids : List String
  dev_name : String
  dev_mf : String
  dev_mdl : String
  dev_sw : String
  stat_t : String
  avty_t : String
  dev_cla : String
  stat_cla : String
  unit_of_meas : String
  val_tpl : String
  json_attr_t : String
  last_reset : String
deriving DecidableEq, Repr

/-- Static device/environment settings of the publisher. -/
structure Env where
  mqttPre : String
  uid : String
  devName : String
  manufacturer : String
  model : String
  scanTerm : String
deriving DecidableEq, Repr

/-- `publish_discovery_energy` without the publish step: the config
topic, the document, and the returned state topic.  `midnight` is the
ISO string of today's midnight (JST), computed from the clock at call
time. -/
def discovery_energy_doc (e : Env) (k : TotalKey) (name objectId : String)
    (avty_t attr_t midnight : String) : String × ConfigDoc × String :=
  let uniq := uniqId e.uid (.total k)
  let cfg_t := e.mqttPre ++ "/sensor/" ++ uniq ++ "/config"
  let st_t := energy_state_topic e.mqttPre e.uid (keyName k)
  (cfg_t,
   { name := name
     object_id := "aiseg2mqtt_" ++ objectId
     uniq_id := uniq
     dev_ids := [e.uid]
     dev_name := e.devName
     dev_mf := e.manufacturer
     dev_mdl := e.model
     dev_sw := "web-scrape"
     stat_t := st_t
     avty_t := avty_t
     dev_cla := "energy"
     stat_cla := "total"
     unit_of_meas := "kWh"
     val_tpl := "\x7b\x7b value_json.kwh \x7d\x7d"
     json_attr_t := attr_t
     last_reset := midnight },
   st_t)

/-- `publish_discovery_circuit` without the publish step. -/
def discovery_circuit_doc (e : Env) (cid cname : String)
    (avty_t midnight : String) : String × ConfigDoc × String :=
  let uniq := uniqId e.uid (.circuit cid)
  let cfg_t := e.mqttPre ++ "/sensor/" ++ uniq ++ "/config"
  let st_t := circuit_state_topic e.mqttPre e.uid cid
  (cfg_t,
   { name := cname
     object_id := "aiseg2mqtt_c" ++ cid
     uniq_id := uniq
     dev_ids := [e.uid]
     dev_name := e.devName
     dev_mf := e.manufacturer
     dev_mdl := e.model
     dev_sw := "web-scrape"
     stat_t := st_t
     avty_t := avty_t
     dev_cla := "energy"
     stat_cla := "total"
     unit_of_meas := "kWh"
     val_tpl := "\x7b\x7b value_json.kwh \x7d\x7d"
     json_attr_t := st_t
     last_reset := midnight },
   st_t)

/-! ### The publisher's message sequence (`main` of `aiseg2_publish.py`)

A message is a topic, a payload, and the retain flag passed to
`mc.publish`; every `publish_and_wait` call in `main` leaves `retain` at
its default `True`.  Payload dictionaries are kept structured (the code
serialises them with `json.dumps` at the publish site).
-/

/-- A message payload. -/
inductive Payload where
  | text (s : String) : Payload
  | metaDoc (term : String) (circuitCount : Nat) (ts : String) : Payload
  | configDoc (d : ConfigDoc) : Payload
  | stateEnergy (kwh : ℚ) : Payload
  | stateCircuit (kwh : ℚ) (name cid term : String) : Payload
deriving DecidableEq, Repr

/-- A message handed to the broker. -/
structure Msg where
  topic : String
  payload : Payload
  retain : Bool
deriving DecidableEq, Repr

/-- The `total_map` literal of `main`. -/
def totalMap : List (TotalKey × String × String) :=
  [(.totalUse, "Total Energy Today", "total_today"),
   (.buy, "Purchased Energy Today", "buy_today"),
   (.sell, "Sold Energy Today", "sell_today"),
   (.gen, "Generated Energy Today", "gen_today")]

/-- One element of `per`: `{"id": .., "name": .., "kwh": ..}`. -/
structure PerCircuit where
  id : String
  name : String
  kwh : ℚ
deriving DecidableEq, Repr

/-- `per = [{... "kwh": fetch_circuit_kwh(c["id"])} for c in circuits]`. -/
def perOf (circuits : List Circuit) (kwhOf : String → ℚ) : List PerCircuit :=
  circuits.map fun c => ⟨c.id, c.name, kwhOf c.id⟩

/-- Python dict assignment `d[k] = v` on an insertion-ordered
association list: update in place if present, else append. -/
def dictInsert {K V : Type} [DecidableEq K] :
    List (K × V) → K → V → List (K × V)
  | [], k, v => [(k, v)]
  | (k0, v0) :: rest, k, v =>
    if k0 = k then (k0, v) :: rest else (k0, v0) :: dictInsert rest k v

/-- The discovery loop over `total_map`: accumulates the published config
messages and the `total_state_topics` dict. -/
def totalsDiscoveryStep (e : Env) (avty_t meta_t midnight : String)
    (acc : List Msg × List (TotalKey × String)) (entry : TotalKey × String × String) :
    List Msg × List (TotalKey × String) :=
  let (key, disp, obj) := entry
  let (cfg_t, doc, st_t) := discovery_energy_doc e key disp obj avty_t meta_t midnight
  (acc.1 ++ [⟨cfg_t, .configDoc doc, true⟩], dictInsert acc.2 key st_t)

/-- The message sequence of one successful `main` run, in publish order.
Inputs: the fetched catalog, the totals dict (`fetch_totals` always
returns exactly the four keys), the per-circuit reading function, the
meta timestamp and the midnight timestamp. -/
def mainPublishSeq (e : Env) (circuits : List Circuit) (totals : TotalKey → ℚ)
    (kwhOf : String → ℚ) (nowIso midnight : String) : List Msg :=
  let per := perOf circuits kwhOf
  let avty_t := availability_topic e.mqttPre e.uid
  let meta_t := meta_topic e.mqttPre e.uid
  let availMsgs : List Msg := [⟨avty_t, .text "online", true⟩]
  let metaMsgs : List Msg := [⟨meta_t, .metaDoc e.scanTerm per.length nowIso, true⟩]
  let (cfgTotalMsgs, totalStateTopics) :=
    totalMap.foldl (totalsDiscoveryStep e avty_t meta_t midnight) ([], [])
  let cfgCircMsgs : List Msg := per.map fun c =>
    let (cfg_t, doc, _) := discovery_circuit_doc e c.id c.name avty_t midnight
    ⟨cfg_t, .configDoc doc, true⟩
  let stTotalMsgs : List Msg := totalStateTopics.map fun p =>
    ⟨p.2, .stateEnergy (totals p.1), true⟩
  let stCircMsgs : List Msg := per.map fun c =>
    ⟨circuit_state_topic e.mqttPre e.uid c.id,
     .stateCircuit c.kwh c.name c.id e.scanTerm, true⟩
  availMsgs ++ metaMsgs ++ cfgTotalMsgs ++ cfgCircMsgs ++ stTotalMsgs ++ stCircMsgs

/-- The sensors of one run: the four totals keys, then one per catalog
circuit. -/
def runSensors (circuits : List Circuit) : List Sensor :=
  [.total .totalUse, .total .buy, .total .sell, .total .gen] ++
    circuits.map fun c => .circuit c.id

/-! ### The `__main__` failure path of `aiseg2_publish.py`

On an exception from `main`, a fresh client is opened and a single
`offline` availability message is published with acknowledgement; any
exception of that secondary block is swallowed by `except Exception:
pass` and the original error is re-raised.  The secondary block is
modelled by which of its steps succeed; its observable output is the list
of messages that reach the broker.
-/

/-- Which steps of the secondary (offline-announcement) block succeed. -/
structure SecondaryEnv where
  connectOk : Bool
  publishOk : Bool
  disconnectOk : Bool
deriving DecidableEq, Repr

/-- Messages the secondary block delivers: nothing if `mqtt_client()`
raises; the one `offline` message if the publish (incl. its ACK wait)
succeeds; a later `disconnect_gracefully` failure is irrelevant to
delivery. -/
def secondaryMsgs (e : Env) (sec : SecondaryEnv) : List Msg :=
  if sec.connectOk then
    if sec.publishOk then [⟨availability_topic e.mqttPre e.uid, .text "offline", true⟩]
    else []
  else []

/-- The `__main__` wrapper: on success the run's messages and a normal
exit; on error `err` the secondary block's messages and the re-raised
original error (whatever happens inside the secondary block). -/
def runTopLevel (e : Env) (mainOutcome : Except String (List Msg))
    (sec : SecondaryEnv) : List Msg × Except String Unit :=
  match mainOutcome with
  | .ok msgs => (msgs, .ok ())
  | .error err => (secondaryMsgs e sec, .error err)

/-! ### The coordinator's per-circuit loop
(`AiSeg2DataUpdateCoordinator._async_update_data`)

`circuit_data` is a Python dict keyed by circuit id; each circuit is
fetched through `_fetch_with_retry(..., max_retries=2)` and a circuit
whose fetch raises (budget exhausted) is skipped with `continue`.  The
per-attempt outcomes of circuit `cid` are `attempts cid`.
-/

/-- The per-circuit data stored in the result dict. -/
structure CircuitData where
  name : String
  kwh : ℚ
deriving DecidableEq, Repr

/-- The retried fetch of one circuit (`max_retries=2`). -/
def circuitFetch (attempts : String → Nat → Except String ℚ) (cid : String) :
    Option (Except String ℚ × Nat) :=
  fetch_with_retry (attempts cid) 2

/-- The `for circuit in self.circuits` loop building `circuit_data`. -/
def updateCircuits (attempts : String → Nat → Except String ℚ) :
    List Circuit → List (String × CircuitData) → List (String × CircuitData)
  | [], acc => acc
  | c :: rest, acc =>
    match circuitFetch attempts c.id with
    | some (.ok v, _) => updateCircuits attempts rest (dictInsert acc c.id ⟨c.name, v⟩)
    | _ => updateCircuits attempts rest acc

/-- `circuit_data` at the end of the loop. -/
def circuitData (attempts : String → Nat → Except String ℚ)
    (circuits : List Circuit) : List (String × CircuitData) :=
  updateCircuits attempts circuits []

/-- Whether a circuit's retried fetch succeeds. -/
def fetchOk (attempts : String → Nat → Except String ℚ) (c : Circuit) : Bool :=
  match circuitFetch attempts c.id with
  | some (.ok _, _) => true
  | _ => false

/-- The value of a successful retried fetch (defaulting to `0`; only used
on circuits for which `fetchOk` holds). -/
def fetchVal (attempts : String → Nat → Except String ℚ) (c : Circuit) : ℚ :=
  match circuitFetch attempts c.id with
  | some (.ok v, _) => v
  | _ => 0

/-! ### Publish-order vocabulary

Named forms of the messages `main` publishes, used to state the ordering
contract, and the last character of a topic, which discriminates the
topic families (`...y` availability, `...a` meta, `...g` config, `...e`
state). -/

/-- The last character of a string. -/
def lastChar (s : String) : Option Char :=
  s.data.getLast?

/-- The `online` availability message. -/
def onlineMsg (e : Env) : Msg :=
  ⟨availability_topic e.mqttPre e.uid, .text "online", true⟩

/-- The run-metadata message. -/
def runMetaMsg (e : Env) (count : Nat) (nowIso : String) : Msg :=
  ⟨meta_topic e.mqttPre e.uid, .metaDoc e.scanTerm count nowIso, true⟩

/-- The discovery/config message of one `total_map` entry. -/
def cfgTotalMsg (e : Env) (midnight : String) (entry : TotalKey × String × String) : Msg :=
  ⟨(discovery_energy_doc e entry.1 entry.2.1 entry.2.2 (availability_topic e.mqttPre e.uid)
      (meta_topic e.mqttPre e.uid) midnight).1,
   .configDoc (discovery_energy_doc e entry.1 entry.2.1 entry.2.2
      (availability_topic e.mqttPre e.uid) (meta_topic e.mqttPre e.uid) midnight).2.1,
   true⟩

/-- The discovery/config message of one circuit. -/
def cfgCircMsg (e : Env) (midnight : String) (c : PerCircuit) : Msg :=
  ⟨(discovery_circuit_doc e c.id c.name (availability_topic e.mqttPre e.uid) midnight).1,
   .configDoc (discovery_circuit_doc e c.id c.name
      (availability_topic e.mqttPre e.uid) midnight).2.1,
   true⟩

/-- The state message of one `total_map` entry. -/
def stTotalMsg (e : Env) (totals : TotalKey → ℚ) (entry : TotalKey × String × String) : Msg :=
  ⟨energy_state_topic e.mqttPre e.uid (keyName entry.1), .stateEnergy (totals entry.1), true⟩

/-- The state message of one circuit. -/
def stCircMsg (e : Env) (c : PerCircuit) : Msg :=
  ⟨circuit_state_topic e.mqttPre e.uid c.id,
   .stateCircuit c.kwh c.name c.id e.scanTerm, true⟩

/-! ## Helper lemmas -/

theorem decimalVal_nonneg (ip fp : List Char) : 0 ≤ decimalVal ip fp := by
  unfold decimalVal
  have h1 : (0 : ℚ) ≤ (digitsToNat ip : ℚ) := by positivity
  have h2 : (0 : ℚ) ≤ (digitsToNat fp : ℚ) / (10 : ℚ) ^ fp.length := by positivity
  linarith

theorem rawExtract_nonneg (s : String) : 0 ≤ rawExtract s := by
  unfold rawExtract
  cases h : numSearch (normNumText s.data) with
  | none => simp
  | some p => exact decimalVal_nonneg p.1 p.2

theorem numSearch_eq_none (l : List Char) (h : ∀ c ∈ l, c.isDigit = false) :
    numSearch l = none := by
  induction l with
  | nil => rfl
  | cons c rest ih =>
    unfold numSearch
    rw [h c (List.mem_cons_self c rest)]
    simp only [Bool.false_eq_true, if_false]
    exact ih fun x hx => h x (List.mem_cons_of_mem c hx)

theorem normNumText_no_digit (s : List Char) (h : ∀ c ∈ s, c.isDigit = false) :
    ∀ c ∈ normNumText s, c.isDigit = false := by
  intro c hc
  unfold normNumText pyRemoveChar pyReplaceChar at hc
  obtain ⟨hc1, -⟩ := List.mem_filter.1 hc
  obtain ⟨b, hb, rfl⟩ := List.mem_map.1 hc1
  obtain ⟨a, ha, rfl⟩ := List.mem_map.1 hb
  have := h a ha
  by_cases h1 : a = '，' <;> by_cases h2 : (if a = '，' then ',' else a) = '．' <;>
    simp_all

theorem rawExtract_eq_of_numSearch {s : String} {ip fp : List Char}
    (h : numSearch (normNumText s.data) = some (ip, fp)) :
    rawExtract s = decimalVal ip fp := by
  unfold rawExtract
  rw [h]

theorem rawExtract_of_no_digit (s : String) (h : ∀ c ∈ s.data, c.isDigit = false) :
    rawExtract s = 0 := by
  unfold rawExtract
  rw [numSearch_eq_none _ (normNumText_no_digit s.data h)]

theorem to_float_eval (s : String) (ip fp : List Char) (a b : Nat)
    (hne : ¬ s.data = []) (h : numSearch (normNumText s.data) = some (ip, fp))
    (ha : digitsToNat ip = a) (hb : digitsToNat fp = b) :
    to_float s = validate_energy_value ((a : ℚ) + (b : ℚ) / (10 : ℚ) ^ fp.length) := by
  unfold to_float
  rw [if_neg hne, rawExtract_eq_of_numSearch h]
  unfold decimalVal
  rw [ha, hb]

theorem to_float_pub_eval (s : String) (ip fp : List Char) (a b : Nat)
    (hne : ¬ s.data = []) (h : numSearch (normNumText s.data) = some (ip, fp))
    (ha : digitsToNat ip = a) (hb : digitsToNat fp = b) :
    to_float_pub s = (a : ℚ) + (b : ℚ) / (10 : ℚ) ^ fp.length := by
  unfold to_float_pub
  rw [if_neg hne, rawExtract_eq_of_numSearch h]
  unfold decimalVal
  rw [ha, hb]

theorem validate_energy_value_mem (v : ℚ) :
    0 ≤ validate_energy_value v ∧ validate_energy_value v ≤ 999999 := by
  unfold validate_energy_value
  split
  · norm_num
  · split
    · norm_num
    · constructor
      · linarith [not_lt.1 (by assumption : ¬ v < 0)]
      · linarith [not_lt.1 (by assumption : ¬ (999999 : ℚ) < v)]

/-! ## Claims -/

/-- C6 counterexample: the claim asserts that the numeric extractor always
returns a value `≤ 999999`, with out-of-range raw values clamped to `0.0`;
but `_to_float` of `aiseg2_publish.py` (one of the two cited extractors)
has no validation step: on input `"9999999"` it returns `9999999`, above
the ceiling. -/
theorem C6_cex_publish_extractor_unclamped :
    to_float_pub "9999999" = 9999999 ∧ ¬ to_float_pub "9999999" ≤ 999999 := by
  have h : to_float_pub "9999999" = ((9999999 : Nat) : ℚ) + ((0 : Nat) : ℚ) / (10 : ℚ) ^ ([] : List Char).length :=
    to_float_pub_eval _ ['9', '9', '9', '9', '9', '9', '9'] [] 9999999 0
      (by decide) rfl rfl rfl
  rw [h]
  norm_num

/-- C6 (amended): both `_to_float` copies are total by construction and
never return a negative value, and an input with no digit yields `0.0`;
the integration's `_to_float` (which applies `_validate_energy_value`)
additionally keeps every result within `[0, 999999]`, clamping raw values
above the ceiling to `0.0`; the standalone publisher's `_to_float`
applies no ceiling. -/
theorem C6_numeric_extractor_total_and_clamped :
    (∀ s : String, 0 ≤ to_float s ∧ to_float s ≤ 999999) ∧
    (∀ s : String, 0 ≤ to_float_pub s) ∧
    (∀ s : String, 999999 < rawExtract s → to_float s = 0) ∧
    (∀ s : String, (∀ c ∈ s.data, c.isDigit = false) →
      to_float s = 0 ∧ to_float_pub s = 0) := by
  refine ⟨fun s => ?_, fun s => ?_, fun s h => ?_, fun s h => ?_⟩
  · unfold to_float
    split
    · norm_num
    · exact validate_energy_value_mem _
  · unfold to_float_pub
    split
    · norm_num
    · exact rawExtract_nonneg s
  · unfold to_float
    split
    · rfl
    · unfold validate_energy_value
      rw [if_neg (by linarith [rawExtract_nonneg s]), if_pos h]
  · have h0 := rawExtract_of_no_digit s h
    unfold to_float to_float_pub
    rw [h0]
    constructor
    · split
      · rfl
      · unfold validate_energy_value
        norm_num
    · split <;> rfl

/-- C6 witness: the amended theorem applied to the digit-free input
`"abc"`. -/
theorem C6_witness : to_float "abc" = 0 ∧ to_float_pub "abc" = 0 :=
  C6_numeric_extractor_total_and_clamped.2.2.2 "abc" (by decide)

/-- C10: the regex `([0-9]+(?:\.[0-9]+)?)` matches only unsigned digit
sequences, so the pre-validation value `float(m.group(1)) if m else 0.0`
is nonnegative for every input string, and consequently the negative-value
clamp branch of `_validate_energy_value` is unreachable from `_to_float`:
removing it does not change the function. -/
theorem C10_raw_value_nonneg_neg_clamp_unreachable :
    (∀ s : String, 0 ≤ rawExtract s) ∧
    (∀ s : String, to_float s = to_float_no_neg s) := by
  refine ⟨rawExtract_nonneg, fun s => ?_⟩
  unfold to_float to_float_no_neg
  split
  · rfl
  · unfold validate_energy_value validate_no_neg
    rw [if_neg (not_lt.2 (rawExtract_nonneg s))]

/-! ### C2: retry coordinator -/

theorem retryLoop_last {E A : Type} (op : Nat → Except E A) (n : Nat) :
    ∀ (remaining attempt : Nat), attempt + remaining = n → 1 ≤ remaining →
      (∀ i, attempt ≤ i → i < n - 1 → ∃ e, op i = .error e) →
      retryLoop op n attempt remaining = some (op (n - 1), n - 1) := by
  intro remaining
  induction remaining with
  | zero => omega
  | succ r ih =>
    intro attempt hsum _ hfail
    unfold retryLoop
    by_cases hr : r = 0
    · subst hr
      have hat : attempt = n - 1 := by omega
      subst hat
      cases hop : op (n - 1) with
      | ok a => simp [hop]
      | error e => simp [hop]
    · have hlt : attempt < n - 1 := by omega
      obtain ⟨e, he⟩ := hfail attempt le_rfl hlt
      rw [he]
      simp only [if_neg (by omega : ¬ attempt = n - 1)]
      exact ih (attempt + 1) (by omega) (by omega)
        (fun i hi1 hi2 => hfail i (by omega) hi2)

/-- C2 counterexample: the claim asserts that an authentication failure
propagates immediately, consuming zero retries; but `_fetch_with_retry`
catches every `Exception` alike, so an operation that fails with an
authentication error on every attempt under budget 3 is retried like a
transient failure: the error is re-raised only after the third attempt
(final attempt index 2, i.e. 2 retries consumed), not after the first
(index 0, zero retries). -/
theorem C2_cex_auth_failure_is_retried :
    fetch_with_retry (fun _ => (Except.error FetchErr.auth : Except FetchErr ℚ)) 3 =
      some (.error .auth, 2) ∧
    ¬ fetch_with_retry (fun _ => (Except.error FetchErr.auth : Except FetchErr ℚ)) 3 =
      some (.error .auth, 0) := by
  constructor
  · rfl
  · intro h
    rw [show fetch_with_retry (fun _ => (Except.error FetchErr.auth : Except FetchErr ℚ)) 3 =
        some (.error .auth, 2) from rfl] at h
    simp at h

/-- C2 (amended): with max attempt count `n ≥ 1`, a failure on each of the
first `n-1` attempts followed by success on attempt `n` returns the
success value with exactly `n-1` retries consumed (final attempt index
`n-1`), and failures on all `n` attempts re-raise the last failure after
the `n`-th attempt — in both cases regardless of the kind of the
failures: `_fetch_with_retry` does not distinguish authentication from
transient errors, so terminal failures consume the same retry budget. -/
theorem C2_retry_policy :
    (∀ (E A : Type) (op : Nat → Except E A) (n : Nat) (a : A),
      1 ≤ n → (∀ i, i < n - 1 → ∃ e, op i = .error e) → op (n - 1) = .ok a →
      fetch_with_retry op n = some (.ok a, n - 1)) ∧
    (∀ (E A : Type) (op : Nat → Except E A) (n : Nat) (e : E),
      1 ≤ n → (∀ i, i < n - 1 → ∃ e0, op i = .error e0) → op (n - 1) = .error e →
      fetch_with_retry op n = some (.error e, n - 1)) := by
  constructor
  · intro E A op n a hn hfail hok
    unfold fetch_with_retry
    rw [retryLoop_last op n n 0 (by omega) hn (fun i _ h2 => hfail i h2), hok]
  · intro E A op n e hn hfail herr
    unfold fetch_with_retry
    rw [retryLoop_last op n n 0 (by omega) hn (fun i _ h2 => hfail i h2), herr]

/-- C2 witness: budget 3, transient failures on attempts 1 and 2, success
on attempt 3: the coordinator returns the success value `7/2` with final
attempt index 2 (two retries); and three transient failures re-raise the
last one. -/
theorem C2_witness :
    fetch_with_retry
      (fun i => if i < 2 then (Except.error FetchErr.transient : Except FetchErr ℚ)
                else .ok (7 / 2)) 3 = some (.ok (7 / 2), 2) ∧
    fetch_with_retry (fun _ => (Except.error FetchErr.transient : Except FetchErr ℚ)) 3 =
      some (.error .transient, 2) := by
  constructor
  · exact C2_retry_policy.1 FetchErr ℚ _ 3 (7 / 2) (by omega)
      (fun i hi => ⟨.transient, by simp [show i < 2 by omega]⟩) (by simp)
  · exact C2_retry_policy.2 FetchErr ℚ _ 3 .transient (by omega)
      (fun i hi => ⟨.transient, rfl⟩) rfl

/-! ### C5: per-circuit resilience -/

theorem dictInsert_fresh {K V : Type} [DecidableEq K] (l : List (K × V)) (k : K) (v : V)
    (h : ¬ k ∈ l.map Prod.fst) : dictInsert l k v = l ++ [(k, v)] := by
  induction l with
  | nil => rfl
  | cons p rest ih =>
    unfold dictInsert
    rw [if_neg (by simp at h; exact fun hk => h.1 hk.symm)]
    rw [ih (by simp at h ⊢; exact h.2)]
    rfl

theorem updateCircuits_eq (attempts : String → Nat → Except String ℚ) :
    ∀ (circuits : List Circuit) (acc : List (String × CircuitData)),
      (circuits.map Circuit.id).Nodup →
      (∀ cid ∈ circuits.map Circuit.id, ¬ cid ∈ acc.map Prod.fst) →
      updateCircuits attempts circuits acc =
        acc ++ (circuits.filter (fetchOk attempts)).map
          (fun c => (c.id, ⟨c.name, fetchVal attempts c⟩)) := by
  intro circuits
  induction circuits with
  | nil => intro acc _ _; simp [updateCircuits]
  | cons c rest ih =>
    intro acc hnodup hfresh
    have hnd2 : (rest.map Circuit.id).Nodup := by simp at hnodup; exact hnodup.2
    cases hf : circuitFetch attempts c.id with
    | none =>
      have hok : fetchOk attempts c = false := by simp only [fetchOk, hf]
      have h1 : updateCircuits attempts (c :: rest) acc = updateCircuits attempts rest acc := by
        simp only [updateCircuits, hf]
      rw [h1, List.filter_cons_of_neg (by simp [hok])]
      exact ih acc hnd2 fun cid hc => hfresh cid (by simp at hc ⊢; exact Or.inr hc)
    | some r =>
      obtain ⟨res, cnt⟩ := r
      cases res with
      | error e =>
        have hok : fetchOk attempts c = false := by simp only [fetchOk, hf]
        have h1 : updateCircuits attempts (c :: rest) acc = updateCircuits attempts rest acc := by
          simp only [updateCircuits, hf]
        rw [h1, List.filter_cons_of_neg (by simp [hok])]
        exact ih acc hnd2 fun cid hc => hfresh cid (by simp at hc ⊢; exact Or.inr hc)
      | ok v =>
        have hok : fetchOk attempts c = true := by simp only [fetchOk, hf]
        have hval : fetchVal attempts c = v := by simp only [fetchVal, hf]
        have h1 : updateCircuits attempts (c :: rest) acc =
            updateCircuits attempts rest (dictInsert acc c.id ⟨c.name, v⟩) := by
          simp only [updateCircuits, hf]
        have hc_notin : ¬ c.id ∈ rest.map Circuit.id := by
          simp at hnodup
          exact fun hmem => by
            obtain ⟨c2, hc2, hid⟩ := List.mem_map.1 hmem
            exact hnodup.1 c2 hc2 hid
        rw [h1, dictInsert_fresh acc c.id _ (hfresh c.id (by simp))]
        rw [List.filter_cons_of_pos (by simp [hok]), List.map_cons, hval]
        rw [show acc ++ ((c.id, CircuitData.mk c.name v) ::
            (rest.filter (fetchOk attempts)).map
              (fun c => (c.id, ⟨c.name, fetchVal attempts c⟩))) =
          (acc ++ [(c.id, CircuitData.mk c.name v)]) ++
            (rest.filter (fetchOk attempts)).map
              (fun c => (c.id, ⟨c.name, fetchVal attempts c⟩)) from by simp]
        exact ih (acc ++ [(c.id, ⟨c.name, v⟩)]) hnd2
          (fun cid hc => by
            have h2 : ¬ cid ∈ acc.map Prod.fst :=
              hfresh cid (by simp at hc ⊢; exact Or.inr hc)
            have h3 : ¬ cid = c.id := fun h => hc_notin (h ▸ hc)
            simp [h2, h3])

/-- C5: a circuit whose retried energy fetch exhausts its (smaller)
budget of 2 attempts is omitted from `circuit_data` entirely — no entry,
no zero reading — while the result is exactly the successful circuits in
catalog order with their fetched values. -/
theorem C5_circuit_skip_on_retry_exhaustion :
    ∀ (attempts : String → Nat → Except String ℚ) (circuits : List Circuit)
      (c : Circuit),
      (circuits.map Circuit.id).Nodup → c ∈ circuits →
      (∀ i, i < 2 → ∃ e, attempts c.id i = .error e) →
      ¬ c.id ∈ (circuitData attempts circuits).map Prod.fst ∧
      circuitData attempts circuits =
        (circuits.filter (fetchOk attempts)).map
          (fun c2 => (c2.id, ⟨c2.name, fetchVal attempts c2⟩)) := by
  intro attempts circuits c hnodup hmem hexh
  have heq : circuitData attempts circuits =
      (circuits.filter (fetchOk attempts)).map
        (fun c2 => (c2.id, ⟨c2.name, fetchVal attempts c2⟩)) := by
    unfold circuitData
    rw [updateCircuits_eq attempts circuits [] hnodup (by simp)]
    simp
  refine ⟨?_, heq⟩
  have hfetch : circuitFetch attempts c.id = some (attempts c.id 1, 1) := by
    unfold circuitFetch fetch_with_retry
    exact retryLoop_last (attempts c.id) 2 2 0 rfl (by omega)
      (fun i h1 h2 => hexh i (by omega))
  obtain ⟨e1, he1⟩ := hexh 1 (by omega)
  have hok : fetchOk attempts c = false := by
    simp only [fetchOk, hfetch, he1]
  rw [heq]
  intro hin
  rw [List.map_map] at hin
  obtain ⟨c2, hc2, hid⟩ := List.mem_map.1 hin
  have hc2mem : c2 ∈ circuits := List.mem_of_mem_filter hc2
  have : c2 = c :=
    List.inj_on_of_nodup_map hnodup hc2mem hmem hid
  subst this
  have := List.of_mem_filter hc2
  rw [hok] at this
  exact Bool.noConfusion this

/-- C5 witness: five circuits with distinct ids where circuit `"3"` fails
both attempts and every other circuit succeeds: `"3"` has no entry and
exactly the four other circuits appear, in order, with their readings. -/
theorem C5_witness :
    ¬ "3" ∈ (circuitData
        (fun cid _ => if cid = "3" then .error "ReadTimeout" else .ok 1)
        [⟨"1", "A"⟩, ⟨"2", "B"⟩, ⟨"3", "C"⟩, ⟨"4", "D"⟩, ⟨"5", "E"⟩]).map Prod.fst ∧
    circuitData (fun cid _ => if cid = "3" then .error "ReadTimeout" else .ok 1)
        [⟨"1", "A"⟩, ⟨"2", "B"⟩, ⟨"3", "C"⟩, ⟨"4", "D"⟩, ⟨"5", "E"⟩] =
      [("1", ⟨"A", 1⟩), ("2", ⟨"B", 1⟩), ("4", ⟨"D", 1⟩), ("5", ⟨"E", 1⟩)] := by
  have h := C5_circuit_skip_on_retry_exhaustion
    (fun cid _ => if cid = "3" then .error "ReadTimeout" else .ok 1)
    [⟨"1", "A"⟩, ⟨"2", "B"⟩, ⟨"3", "C"⟩, ⟨"4", "D"⟩, ⟨"5", "E"⟩] ⟨"3", "C"⟩
    (by decide) (by decide) (fun i _ => ⟨"ReadTimeout", rfl⟩)
  exact ⟨h.1, h.2.trans (by decide)⟩

/-! ### C7 / C4: catalog decoding -/

theorem circuitsOfEntries_obj (entries : List (List (String × Json))) :
    circuitsOfEntries (entries.map Json.obj) =
      .ok ((entries.filter isBtnOne).map mkCircuit) := by
  induction entries with
  | nil => rfl
  | cons f rest ih =>
    by_cases hb : isBtnOne f = true
    · simp only [List.map_cons, circuitsOfEntries, entryToCircuit, if_pos hb, ih,
        List.filter_cons_of_pos hb, List.map_cons]
    · simp only [List.map_cons, circuitsOfEntries, entryToCircuit, if_neg hb, ih,
        List.filter_cons_of_neg hb]

/-- C7: on a decoded catalog whose entries are JSON objects, the catalog
builder returns exactly the entries flagged `strBtnType == "1"`, in their
input order, with `id = str(strId)` and a `"Circuit {id}"` display-name
fallback when `strCircuit` is absent or empty. -/
theorem C7_catalog_filter_and_fallback :
    (∀ entries : List (List (String × Json)),
      catalogFromJson (.obj [("arrayCircuitNameList", .arr (entries.map Json.obj))]) =
        .ok ((entries.filter isBtnOne).map mkCircuit)) ∧
    (∀ f : List (String × Json), (mkCircuit f).id = pyStr (f.lookup "strId")) ∧
    (∀ f : List (String × Json), f.lookup "strCircuit" = none →
      (mkCircuit f).name = "Circuit " ++ (mkCircuit f).id) ∧
    (∀ f : List (String × Json), f.lookup "strCircuit" = some (.str "") →
      (mkCircuit f).name = "Circuit " ++ (mkCircuit f).id) := by
  refine ⟨fun entries => ?_, fun f => rfl, fun f h => ?_, fun f h => ?_⟩
  · exact circuitsOfEntries_obj entries
  · simp [mkCircuit, h]
  · simp [mkCircuit, h, jsonTruthy]

/-- C7 witness: a mixed catalog — entry 1 flagged `"1"` with a name,
entry 2 flagged `"0"`, entry 3 flagged `"1"` with an empty name — yields
exactly entries 1 and 3 in order, entry 3 with the generated name; plus
the fallback clause applied to an entry with `strCircuit` absent. -/
theorem C7_witness :
    catalogFromJson (.obj [("arrayCircuitNameList", .arr
      [.obj [("strId", .str "1"), ("strCircuit", .str "Living Room"), ("strBtnType", .str "1")],
       .obj [("strId", .str "2"), ("strCircuit", .str "Garage"), ("strBtnType", .str "0")],
       .obj [("strId", .str "3"), ("strCircuit", .str ""), ("strBtnType", .str "1")]])]) =
      .ok [⟨"1", "Living Room"⟩, ⟨"3", "Circuit 3"⟩] ∧
    (mkCircuit [("strId", .str "7"), ("strBtnType", .str "1")]).name =
      "Circuit " ++ (mkCircuit [("strId", .str "7"), ("strBtnType", .str "1")]).id := by
  constructor
  · exact (C7_catalog_filter_and_fallback.1
      [[("strId", .str "1"), ("strCircuit", .str "Living Room"), ("strBtnType", .str "1")],
       [("strId", .str "2"), ("strCircuit", .str "Garage"), ("strBtnType", .str "0")],
       [("strId", .str "3"), ("strCircuit", .str ""), ("strBtnType", .str "1")]]).trans
      (by rfl)
  · exact C7_catalog_filter_and_fallback.2.2.1
      [("strId", .str "7"), ("strBtnType", .str "1")] rfl

/-- C4 counterexample: the claim asserts the catalog fetch degrades to an
empty list, never raising, when the extracted parenthesised argument fails
to parse as JSON; but on a `window.onload` script whose argument is not
JSON, `json.loads` raises and `fetch_circuit_catalog` propagates the
error instead of returning `[]`. -/
theorem C4_cex_parse_failure_raises :
    fetch_circuit_catalog [some "window.onload(notjson)"] = .error "JSONDecodeError" ∧
    ¬ fetch_circuit_catalog [some "window.onload(notjson)"] = .ok [] := by
  constructor
  · rfl
  · intro h
    rw [show fetch_circuit_catalog [some "window.onload(notjson)"] =
        .error "JSONDecodeError" from rfl] at h
    exact Except.noConfusion h

/-- C4 (amended): the catalog fetch returns `[]` (not an error) when the
`window.onload` script is absent or has no parenthesised argument
(`find('(') < 0 or rfind(')') <= find('(')`); but when the argument is
present and fails to parse as JSON, the `JSONDecodeError` escapes — the
catalog fetch raises rather than degrading to `[]`, so only the
missing-shape cases degrade. -/
theorem C4_catalog_empty_or_raise :
    (fetch_circuit_catalog [] = .ok []) ∧
    (∀ (s0 : Option String) (rest : List (Option String)),
      pyFind (s0.getD "").data '(' < 0 ∨
        pyRFind (s0.getD "").data ')' ≤ pyFind (s0.getD "").data '(' →
      fetch_circuit_catalog (s0 :: rest) = .ok []) ∧
    (∀ (s0 : Option String) (rest : List (Option String)) (err : String),
      ¬ (pyFind (s0.getD "").data '(' < 0 ∨
        pyRFind (s0.getD "").data ')' ≤ pyFind (s0.getD "").data '(') →
      jsonLoads (extractedArg (s0.getD "").data (pyFind (s0.getD "").data '(')
        (pyRFind (s0.getD "").data ')')) = .error err →
      fetch_circuit_catalog (s0 :: rest) = .error err) := by
  refine ⟨rfl, fun s0 rest h => ?_, fun s0 rest err h hj => ?_⟩
  · simp only [fetch_circuit_catalog]
    rw [if_pos h]
  · simp only [fetch_circuit_catalog]
    rw [if_neg h, hj]

/-- C4 witness: the amended theorem applied to a script with no
parenthesised payload (degrades to `[]`) and to a script whose argument
`bad` is not JSON (the error propagates). -/
theorem C4_witness :
    fetch_circuit_catalog [some "window.onload and nothing else"] = .ok [] ∧
    fetch_circuit_catalog [some "init(bad)"] = .error "JSONDecodeError" := by
  constructor
  · exact C4_catalog_empty_or_raise.2.1 (some "window.onload and nothing else") []
      (by decide)
  · exact C4_catalog_empty_or_raise.2.2 (some "init(bad)") [] "JSONDecodeError"
      (by decide) rfl

/-! ### C8: topic derivation -/

theorem str_append_left_cancel {a x y : String} (h : a ++ x = a ++ y) : x = y := by
  apply String.ext
  have hd := String.data_eq_of_eq h
  simp only [String.data_append] at hd
  exact List.append_cancel_left hd

theorem str_append_right_cancel {x y b : String} (h : x ++ b = y ++ b) : x = y := by
  apply String.ext
  have hd := String.data_eq_of_eq h
  simp only [String.data_append] at hd
  exact List.append_cancel_right hd

theorem keyName_inj {k1 k2 : TotalKey} (h : keyName k1 = keyName k2) : k1 = k2 := by
  cases k1 <;> cases k2 <;> first
    | rfl
    | exact absurd h (by decide)

theorem uniqId_total_ne_circuit (uid : String) (k : TotalKey) (cid : String) :
    ¬ uniqId uid (.total k) = uniqId uid (.circuit cid) := by
  intro h
  have hd := String.data_eq_of_eq h
  simp only [uniqId, String.data_append, List.append_assoc] at hd
  have hd2 := List.append_cancel_left hd
  have hd3 : '_' :: (keyName k).data =
      '_' :: 'c' :: (cid.data ++ "_kwh".data) := hd2
  have hd4 : (keyName k).data = 'c' :: (cid.data ++ "_kwh".data) := by
    injection hd3
  cases k with
  | totalUse =>
    have h5 : 't' :: "otal_use_kwh".data = 'c' :: (cid.data ++ "_kwh".data) := hd4
    injection h5 with h6 _
    exact absurd h6 (by decide)
  | buy =>
    have h5 : 'b' :: "uy_kwh".data = 'c' :: (cid.data ++ "_kwh".data) := hd4
    injection h5 with h6 _
    exact absurd h6 (by decide)
  | sell =>
    have h5 : 's' :: "ell_kwh".data = 'c' :: (cid.data ++ "_kwh".data) := hd4
    injection h5 with h6 _
    exact absurd h6 (by decide)
  | gen =>
    have h5 : 'g' :: "en_kwh".data = 'c' :: (cid.data ++ "_kwh".data) := hd4
    injection h5 with h6 _
    exact absurd h6 (by decide)

theorem uniqId_inj (uid : String) {s1 s2 : Sensor}
    (h : uniqId uid s1 = uniqId uid s2) : s1 = s2 := by
  cases s1 with
  | total k1 =>
    cases s2 with
    | total k2 => exact congrArg Sensor.total (keyName_inj (str_append_left_cancel h))
    | circuit c2 => exact absurd h (uniqId_total_ne_circuit uid k1 c2)
  | circuit c1 =>
    cases s2 with
    | total k2 => exact absurd h.symm (uniqId_total_ne_circuit uid k2 c1)
    | circuit c2 =>
      exact congrArg Sensor.circuit
        (str_append_left_cancel (str_append_right_cancel h))

theorem config_topic_inj (p u : String) {s1 s2 : Sensor}
    (h : config_topic p u s1 = config_topic p u s2) : s1 = s2 :=
  uniqId_inj u (str_append_left_cancel (str_append_right_cancel h))

theorem state_total_ne_circuit (p u : String) (k : TotalKey) (cid : String) :
    ¬ state_topic p u (.total k) = state_topic p u (.circuit cid) := by
  intro h
  have hd := String.data_eq_of_eq h
  simp only [state_topic, energy_state_topic, circuit_state_topic,
    String.data_append, List.append_assoc] at hd
  have hd2 := List.append_cancel_left (List.append_cancel_left
    (List.append_cancel_left hd))
  have hd3 : '/' :: ((keyName k).data ++ "/state".data) =
      '/' :: 'c' :: (cid.data ++ "/kwh/state".data) := hd2
  have hd4 : (keyName k).data ++ "/state".data =
      'c' :: (cid.data ++ "/kwh/state".data) := by
    injection hd3
  cases k with
  | totalUse =>
    have h5 : 't' :: ("otal_use_kwh".data ++ "/state".data) =
        'c' :: (cid.data ++ "/kwh/state".data) := hd4
    injection h5 with h6 _
    exact absurd h6 (by decide)
  | buy =>
    have h5 : 'b' :: ("uy_kwh".data ++ "/state".data) =
        'c' :: (cid.data ++ "/kwh/state".data) := hd4
    injection h5 with h6 _
    exact absurd h6 (by decide)
  | sell =>
    have h5 : 's' :: ("ell_kwh".data ++ "/state".data) =
        'c' :: (cid.data ++ "/kwh/state".data) := hd4
    injection h5 with h6 _
    exact absurd h6 (by decide)
  | gen =>
    have h5 : 'g' :: ("en_kwh".data ++ "/state".data) =
        'c' :: (cid.data ++ "/kwh/state".data) := hd4
    injection h5 with h6 _
    exact absurd h6 (by decide)

theorem state_topic_inj (p u : String) {s1 s2 : Sensor}
    (h : state_topic p u s1 = state_topic p u s2) : s1 = s2 := by
  cases s1 with
  | total k1 =>
    cases s2 with
    | total k2 =>
      exact congrArg Sensor.total (keyName_inj
        (str_append_left_cancel (str_append_right_cancel h)))
    | circuit c2 => exact absurd h (state_total_ne_circuit p u k1 c2)
  | circuit c1 =>
    cases s2 with
    | total k2 => exact absurd h.symm (state_total_ne_circuit p u k2 c1)
    | circuit c2 =>
      exact congrArg Sensor.circuit
        (str_append_left_cancel (str_append_right_cancel h))

/-- C8: the discovery builders are pure functions of the device and
sensor identity: two calls with the same inputs yield identical config
and state topics and identical config documents except for the
`last_reset` field (the only clock-dependent field); the topics equal
the shared `config_topic` / `state_topic` derivations; and distinct
sensors (distinct totals keys, distinct circuit ids, or totals key versus
circuit id) never collide on either topic. -/
theorem C8_topics_pure_and_injective :
    (∀ (e : Env) (k : TotalKey) (name objectId avty attr m1 m2 : String),
      (discovery_energy_doc e k name objectId avty attr m1).1 =
        (discovery_energy_doc e k name objectId avty attr m2).1 ∧
      (discovery_energy_doc e k name objectId avty attr m1).2.2 =
        (discovery_energy_doc e k name objectId avty attr m2).2.2 ∧
      (discovery_energy_doc e k name objectId avty attr m1).2.1 =
        { (discovery_energy_doc e k name objectId avty attr m2).2.1 with
            last_reset := m1 }) ∧
    (∀ (e : Env) (cid cname avty m1 m2 : String),
      (discovery_circuit_doc e cid cname avty m1).1 =
        (discovery_circuit_doc e cid cname avty m2).1 ∧
      (discovery_circuit_doc e cid cname avty m1).2.2 =
        (discovery_circuit_doc e cid cname avty m2).2.2 ∧
      (discovery_circuit_doc e cid cname avty m1).2.1 =
        { (discovery_circuit_doc e cid cname avty m2).2.1 with last_reset := m1 }) ∧
    (∀ (e : Env) (k : TotalKey) (name objectId avty attr m : String),
      (discovery_energy_doc e k name objectId avty attr m).1 =
        config_topic e.mqttPre e.uid (.total k) ∧
      (discovery_energy_doc e k name objectId avty attr m).2.2 =
        state_topic e.mqttPre e.uid (.total k)) ∧
    (∀ (e : Env) (cid cname avty m : String),
      (discovery_circuit_doc e cid cname avty m).1 =
        config_topic e.mqttPre e.uid (.circuit cid) ∧
      (discovery_circuit_doc e cid cname avty m).2.2 =
        state_topic e.mqttPre e.uid (.circuit cid)) ∧
    (∀ (p u : String) (s1 s2 : Sensor), ¬ s1 = s2 →
      ¬ config_topic p u s1 = config_topic p u s2 ∧
      ¬ state_topic p u s1 = state_topic p u s2) := by
  refine ⟨fun e k name objectId avty attr m1 m2 => ⟨rfl, rfl, rfl⟩,
    fun e cid cname avty m1 m2 => ⟨rfl, rfl, rfl⟩,
    fun e k name objectId avty attr m => ⟨rfl, rfl⟩,
    fun e cid cname avty m => ⟨rfl, rfl⟩,
    fun p u s1 s2 hne => ⟨fun h => hne (config_topic_inj p u h),
      fun h => hne (state_topic_inj p u h)⟩⟩

/-- C8 witness: for device prefix `homeassistant` and id `aiseg2-scrape`,
the totals sensor `buy_kwh` and the circuit sensor `1` collide on neither
config nor state topic. -/
theorem C8_witness :
    ¬ config_topic "homeassistant" "aiseg2-scrape" (.total .buy) =
      config_topic "homeassistant" "aiseg2-scrape" (.circuit "1") ∧
    ¬ state_topic "homeassistant" "aiseg2-scrape" (.total .buy) =
      state_topic "homeassistant" "aiseg2-scrape" (.circuit "1") :=
  C8_topics_pure_and_injective.2.2.2.2 "homeassistant" "aiseg2-scrape"
    (.total .buy) (.circuit "1") (by decide)

/-! ### C1: publish ordering -/

theorem lastChar_append (a b : String) (hb : ¬ b.data = []) :
    lastChar (a ++ b) = lastChar b := by
  unfold lastChar
  rw [String.data_append]
  exact List.getLast?_append_of_ne_nil _ hb

theorem lastChar_availability (p u : String) :
    lastChar (availability_topic p u) = some 'y' := by
  unfold availability_topic
  rw [lastChar_append _ "/availability" (by decide)]
  rfl

theorem lastChar_meta (p u : String) : lastChar (meta_topic p u) = some 'a' := by
  unfold meta_topic
  rw [lastChar_append _ "/meta" (by decide)]
  rfl

theorem lastChar_config (p u : String) (s : Sensor) :
    lastChar (config_topic p u s) = some 'g' := by
  unfold config_topic
  rw [lastChar_append _ "/config" (by decide)]
  rfl

theorem lastChar_state (p u : String) (s : Sensor) :
    lastChar (state_topic p u s) = some 'e' := by
  cases s with
  | total k =>
    show lastChar (_ ++ "/state") = _
    rw [lastChar_append _ "/state" (by decide)]
    rfl
  | circuit cid =>
    show lastChar (_ ++ "/kwh/state") = _
    rw [lastChar_append _ "/kwh/state" (by decide)]
    rfl

theorem lastChar_cfgTotal (e : Env) (mid : String) (entry : TotalKey × String × String) :
    lastChar (cfgTotalMsg e mid entry).topic = some 'g' :=
  lastChar_config e.mqttPre e.uid (.total entry.1)

theorem lastChar_cfgCirc (e : Env) (mid : String) (c : PerCircuit) :
    lastChar (cfgCircMsg e mid c).topic = some 'g' :=
  lastChar_config e.mqttPre e.uid (.circuit c.id)

/-- Collapsing `main`'s loops: the publish sequence in its literal order. -/
theorem mainPublishSeq_eq (e : Env) (circuits : List Circuit) (totals : TotalKey → ℚ)
    (kwhOf : String → ℚ) (nowIso midnight : String) :
    mainPublishSeq e circuits totals kwhOf nowIso midnight =
      [onlineMsg e, runMetaMsg e (perOf circuits kwhOf).length nowIso] ++
        totalMap.map (cfgTotalMsg e midnight) ++
        (perOf circuits kwhOf).map (cfgCircMsg e midnight) ++
        totalMap.map (stTotalMsg e totals) ++
        (perOf circuits kwhOf).map (stCircMsg e) := by
  rfl

/-- The same sequence in fully right-nested form. -/
theorem mainPublishSeq_cons (e : Env) (circuits : List Circuit) (totals : TotalKey → ℚ)
    (kwhOf : String → ℚ) (nowIso midnight : String) :
    mainPublishSeq e circuits totals kwhOf nowIso midnight =
      onlineMsg e :: runMetaMsg e (perOf circuits kwhOf).length nowIso ::
      cfgTotalMsg e midnight (.totalUse, "Total Energy Today", "total_today") ::
      cfgTotalMsg e midnight (.buy, "Purchased Energy Today", "buy_today") ::
      cfgTotalMsg e midnight (.sell, "Sold Energy Today", "sell_today") ::
      cfgTotalMsg e midnight (.gen, "Generated Energy Today", "gen_today") ::
      ((perOf circuits kwhOf).map (cfgCircMsg e midnight) ++
        (totalMap.map (stTotalMsg e totals) ++
          (perOf circuits kwhOf).map (stCircMsg e))) := by
  rw [mainPublishSeq_eq]
  simp [totalMap]

/-- C1: one successful run publishes, in order: the `online` availability
message, the run-metadata message, every discovery/config document (the
four totals in `total_map` order, then each circuit in catalog order),
then every state document (totals first, then each circuit); consequently
every state-topic publish of a run sensor is preceded by a publish on that
sensor's config topic. -/
theorem C1_publish_order :
    (∀ (e : Env) (circuits : List Circuit) (totals : TotalKey → ℚ)
      (kwhOf : String → ℚ) (nowIso midnight : String),
      mainPublishSeq e circuits totals kwhOf nowIso midnight =
        [onlineMsg e, runMetaMsg e (perOf circuits kwhOf).length nowIso] ++
          totalMap.map (cfgTotalMsg e midnight) ++
          (perOf circuits kwhOf).map (cfgCircMsg e midnight) ++
          totalMap.map (stTotalMsg e totals) ++
          (perOf circuits kwhOf).map (stCircMsg e)) ∧
    (∀ (e : Env) (circuits : List Circuit) (totals : TotalKey → ℚ)
      (kwhOf : String → ℚ) (nowIso midnight : String) (s : Sensor) (j : Nat) (m : Msg),
      s ∈ runSensors circuits →
      (mainPublishSeq e circuits totals kwhOf nowIso midnight)[j]? = some m →
      m.topic = state_topic e.mqttPre e.uid s →
      ∃ i m2, i < j ∧
        (mainPublishSeq e circuits totals kwhOf nowIso midnight)[i]? = some m2 ∧
        m2.topic = config_topic e.mqttPre e.uid s) := by
  refine ⟨mainPublishSeq_eq, ?_⟩
  intro e circuits totals kwhOf nowIso midnight s j m hmem hj ht
  have hm_last : lastChar m.topic = some 'e' := by
    rw [ht]
    exact lastChar_state e.mqttPre e.uid s
  have hlen : (perOf circuits kwhOf).length = circuits.length := by
    unfold perOf
    exact List.length_map circuits _
  -- the state sections start at index 6 + number of circuits
  have hjB : 6 + circuits.length ≤ j := by
    by_contra hlt
    push_neg at hlt
    rw [mainPublishSeq_cons] at hj
    match j, hlt with
    | 0, _ =>
      rw [List.getElem?_cons_zero] at hj
      rw [(Option.some.inj hj).symm, show (onlineMsg e).topic =
        availability_topic e.mqttPre e.uid from rfl, lastChar_availability] at hm_last
      exact absurd (Option.some.inj hm_last) (by decide)
    | 1, _ =>
      simp only [List.getElem?_cons_succ, List.getElem?_cons_zero] at hj
      rw [(Option.some.inj hj).symm, show (runMetaMsg e (perOf circuits kwhOf).length
        nowIso).topic = meta_topic e.mqttPre e.uid from rfl, lastChar_meta] at hm_last
      exact absurd (Option.some.inj hm_last) (by decide)
    | 2, _ =>
      simp only [List.getElem?_cons_succ, List.getElem?_cons_zero] at hj
      rw [(Option.some.inj hj).symm, lastChar_cfgTotal] at hm_last
      exact absurd (Option.some.inj hm_last) (by decide)
    | 3, _ =>
      simp only [List.getElem?_cons_succ, List.getElem?_cons_zero] at hj
      rw [(Option.some.inj hj).symm, lastChar_cfgTotal] at hm_last
      exact absurd (Option.some.inj hm_last) (by decide)
    | 4, _ =>
      simp only [List.getElem?_cons_succ, List.getElem?_cons_zero] at hj
      rw [(Option.some.inj hj).symm, lastChar_cfgTotal] at hm_last
      exact absurd (Option.some.inj hm_last) (by decide)
    | 5, _ =>
      simp only [List.getElem?_cons_succ, List.getElem?_cons_zero] at hj
      rw [(Option.some.inj hj).symm, lastChar_cfgTotal] at hm_last
      exact absurd (Option.some.inj hm_last) (by decide)
    | (jj + 6), hlt6 =>
      simp only [List.getElem?_cons_succ] at hj
      have hjj : jj < ((perOf circuits kwhOf).map (cfgCircMsg e midnight)).length := by
        rw [List.length_map, hlen]
        omega
      rw [List.getElem?_append_left hjj, List.getElem?_map] at hj
      cases hp : (perOf circuits kwhOf)[jj]? with
      | none => rw [hp] at hj; exact Option.noConfusion hj
      | some c =>
        rw [hp] at hj
        rw [(Option.some.inj hj).symm, lastChar_cfgCirc] at hm_last
        exact absurd (Option.some.inj hm_last) (by decide)
  -- a config message for `s` occurs among the first `6 + circuits.length`
  cases s with
  | total k =>
    cases k with
    | totalUse =>
      refine ⟨2, cfgTotalMsg e midnight (.totalUse, "Total Energy Today", "total_today"),
        by omega, by rw [mainPublishSeq_cons]; simp only [List.getElem?_cons_succ, List.getElem?_cons_zero], rfl⟩
    | buy =>
      refine ⟨3, cfgTotalMsg e midnight (.buy, "Purchased Energy Today", "buy_today"),
        by omega, by rw [mainPublishSeq_cons]; simp only [List.getElem?_cons_succ, List.getElem?_cons_zero], rfl⟩
    | sell =>
      refine ⟨4, cfgTotalMsg e midnight (.sell, "Sold Energy Today", "sell_today"),
        by omega, by rw [mainPublishSeq_cons]; simp only [List.getElem?_cons_succ, List.getElem?_cons_zero], rfl⟩
    | gen =>
      refine ⟨5, cfgTotalMsg e midnight (.gen, "Generated Energy Today", "gen_today"),
        by omega, by rw [mainPublishSeq_cons]; simp only [List.getElem?_cons_succ, List.getElem?_cons_zero], rfl⟩
  | circuit cid =>
    have hcid : ∃ c ∈ circuits, c.id = cid := by
      unfold runSensors at hmem
      rcases List.mem_append.1 hmem with h4 | hmap
      · simp at h4
      · obtain ⟨c, hc, hceq⟩ := List.mem_map.1 hmap
        exact ⟨c, hc, by injection hceq⟩
    obtain ⟨c, hcmem, hcid_eq⟩ := hcid
    obtain ⟨idx, hidx, hcat⟩ := List.mem_iff_getElem.1 hcmem
    refine ⟨idx + 6, cfgCircMsg e midnight ⟨c.id, c.name, kwhOf c.id⟩,
      by omega, ?_, by rw [show (cfgCircMsg e midnight ⟨c.id, c.name, kwhOf c.id⟩).topic =
        config_topic e.mqttPre e.uid (.circuit c.id) from rfl, hcid_eq]⟩
    rw [mainPublishSeq_cons]
    simp only [List.getElem?_cons_succ]
    have hidx2 : idx < ((perOf circuits kwhOf).map (cfgCircMsg e midnight)).length := by
      rw [List.length_map, hlen]
      exact hidx
    rw [List.getElem?_append_left hidx2, List.getElem?_map]
    have hper : (perOf circuits kwhOf)[idx]? = some ⟨c.id, c.name, kwhOf c.id⟩ := by
      unfold perOf
      rw [List.getElem?_map, List.getElem?_eq_getElem hidx, hcat]
      rfl
    rw [hper]
    rfl

/-- C1 witness: a run over one circuit (so 12 messages); the `buy_kwh`
state message sits at index 8 and its config message indeed occurs
earlier. -/
theorem C1_witness :
    ∃ i m2, i < 8 ∧
      (mainPublishSeq
        ⟨"homeassistant", "aiseg2-scrape", "AISEG2 (Scraped)", "Panasonic", "AISEG2", "day"⟩
        [⟨"1", "Living Room"⟩] (fun _ => 1) (fun _ => 2) "T" "M")[i]? = some m2 ∧
      m2.topic = config_topic "homeassistant" "aiseg2-scrape" (.total .buy) := by
  refine C1_publish_order.2
    ⟨"homeassistant", "aiseg2-scrape", "AISEG2 (Scraped)", "Panasonic", "AISEG2", "day"⟩
    [⟨"1", "Living Room"⟩] (fun _ => 1) (fun _ => 2) "T" "M" (.total .buy) 8
    (stTotalMsg
      ⟨"homeassistant", "aiseg2-scrape", "AISEG2 (Scraped)", "Panasonic", "AISEG2", "day"⟩
      (fun _ => 1) (.buy, "Purchased Energy Today", "buy_today"))
    (by decide) ?_ rfl
  rw [mainPublishSeq_cons]
  simp only [List.getElem?_cons_succ, perOf, List.map_cons, List.map_nil, totalMap,
    List.cons_append, List.nil_append, List.getElem?_cons_succ, List.getElem?_cons_zero]

/-! ### C3: failure path -/

/-- C3: when `main` raises, the `__main__` handler re-raises the original
error in every case (any failure of the secondary block is swallowed);
the secondary block delivers at most one message; when its connect and
publish both succeed it delivers exactly one `offline` availability
message; and nothing it delivers is a config or state message of any
sensor. -/
theorem C3_offline_on_failure :
    ∀ (e : Env) (err : String) (sec : SecondaryEnv),
      (runTopLevel e (.error err) sec).2 = .error err ∧
      (sec.connectOk = true → sec.publishOk = true →
        (runTopLevel e (.error err) sec).1 =
          [⟨availability_topic e.mqttPre e.uid, .text "offline", true⟩]) ∧
      (runTopLevel e (.error err) sec).1.length ≤ 1 ∧
      (∀ m ∈ (runTopLevel e (.error err) sec).1,
        m.topic = availability_topic e.mqttPre e.uid ∧ m.payload = .text "offline") ∧
      (∀ m ∈ (runTopLevel e (.error err) sec).1, ∀ s : Sensor,
        ¬ m.topic = config_topic e.mqttPre e.uid s ∧
        ¬ m.topic = state_topic e.mqttPre e.uid s) := by
  intro e err sec
  have hmsg : ∀ m ∈ (runTopLevel e (.error err) sec).1,
      m = ⟨availability_topic e.mqttPre e.uid, .text "offline", true⟩ := by
    intro m hm
    cases hcon : sec.connectOk <;> cases hpub : sec.publishOk <;>
      simp [runTopLevel, secondaryMsgs, hcon, hpub] at hm
    exact hm
  refine ⟨rfl, fun hc hp => ?_, ?_, fun m hm => by rw [hmsg m hm]; exact ⟨rfl, rfl⟩,
    fun m hm s => ?_⟩
  · simp [runTopLevel, secondaryMsgs, hc, hp]
  · cases hcon : sec.connectOk <;> cases hpub : sec.publishOk <;>
      simp [runTopLevel, secondaryMsgs, hcon, hpub]
  · have hmt : m.topic = availability_topic e.mqttPre e.uid := by rw [hmsg m hm]
    constructor
    · intro h
      have hy : some 'y' = some 'g' := by
        rw [← lastChar_availability e.mqttPre e.uid, ← hmt, h, lastChar_config]
      exact absurd (Option.some.inj hy) (by decide)
    · intro h
      have hy : some 'y' = some 'e' := by
        rw [← lastChar_availability e.mqttPre e.uid, ← hmt, h, lastChar_state]
      exact absurd (Option.some.inj hy) (by decide)

/-- C3 witness: a failed run with a healthy secondary block re-raises the
original error and delivers exactly one `offline` availability message. -/
theorem C3_witness :
    (runTopLevel
      ⟨"homeassistant", "aiseg2-scrape", "AISEG2 (Scraped)", "Panasonic", "AISEG2", "day"⟩
      (.error "ConnectTimeout") ⟨true, true, true⟩).2 = .error "ConnectTimeout" ∧
    (runTopLevel
      ⟨"homeassistant", "aiseg2-scrape", "AISEG2 (Scraped)", "Panasonic", "AISEG2", "day"⟩
      (.error "ConnectTimeout") ⟨true, true, true⟩).1 =
      [⟨availability_topic "homeassistant" "aiseg2-scrape", .text "offline", true⟩] := by
  have h := C3_offline_on_failure
    ⟨"homeassistant", "aiseg2-scrape", "AISEG2 (Scraped)", "Panasonic", "AISEG2", "day"⟩
    "ConnectTimeout" ⟨true, true, true⟩
  exact ⟨h.1, h.2.1 rfl rfl⟩

/-! ### C9: retention flags -/

/-- C9 counterexample: the claim asserts the availability and run-metadata
messages are published not retained; but every `publish_and_wait` call in
`main` leaves the default `retain=True`, so the `online` availability
message (index 0 of a concrete run) carries `retain = true`, and it is
false that availability-topic messages of the run have `retain = false`. -/
theorem C9_cex_availability_retained :
    (mainPublishSeq
      ⟨"homeassistant", "aiseg2-scrape", "AISEG2 (Scraped)", "Panasonic", "AISEG2", "day"⟩
      [] (fun _ => 0) (fun _ => 0) "T" "M")[0]? =
      some ⟨availability_topic "homeassistant" "aiseg2-scrape", .text "online", true⟩ ∧
    ¬ (∀ m ∈ mainPublishSeq
        ⟨"homeassistant", "aiseg2-scrape", "AISEG2 (Scraped)", "Panasonic", "AISEG2", "day"⟩
        [] (fun _ => 0) (fun _ => 0) "T" "M",
        m.topic = availability_topic "homeassistant" "aiseg2-scrape" →
          m.retain = false) := by
  constructor
  · rw [mainPublishSeq_cons]
    simp only [List.getElem?_cons_zero]
    rfl
  · intro h
    have hmem : onlineMsg
        ⟨"homeassistant", "aiseg2-scrape", "AISEG2 (Scraped)", "Panasonic", "AISEG2", "day"⟩ ∈
        mainPublishSeq
          ⟨"homeassistant", "aiseg2-scrape", "AISEG2 (Scraped)", "Panasonic", "AISEG2", "day"⟩
          [] (fun _ => 0) (fun _ => 0) "T" "M" := by
      rw [mainPublishSeq_cons]
      exact List.mem_cons_self _ _
    have := h _ hmem rfl
    exact Bool.noConfusion this

/-- C9 (amended): every message `main` publishes — availability, run
metadata, discovery/config documents and state documents alike — is
published with `retain = true` (`publish_and_wait` defaults `retain=True`
and `main` never overrides it); in particular the config documents are
retained as the claim states, but the availability and meta messages are
retained as well. -/
theorem C9_all_publishes_retained :
    ∀ (e : Env) (circuits : List Circuit) (totals : TotalKey → ℚ)
      (kwhOf : String → ℚ) (nowIso midnight : String) (m : Msg),
      m ∈ mainPublishSeq e circuits totals kwhOf nowIso midnight →
      m.retain = true := by
  intro e circuits totals kwhOf nowIso midnight m hm
  rw [mainPublishSeq_cons] at hm
  simp only [List.mem_cons, List.mem_append, List.mem_map, totalMap] at hm
  rcases hm with rfl | rfl | rfl | rfl | rfl | rfl |
    ⟨c, -, rfl⟩ | ⟨entry, -, rfl⟩ | ⟨c, -, rfl⟩ <;> rfl

/-- C9 witness: the amended theorem applied to the `online` availability
message of a concrete run. -/
theorem C9_witness :
    (onlineMsg
      ⟨"homeassistant", "aiseg2-scrape", "AISEG2 (Scraped)", "Panasonic", "AISEG2", "day"⟩).retain
      = true :=
  C9_all_publishes_retained
    ⟨"homeassistant", "aiseg2-scrape", "AISEG2 (Scraped)", "Panasonic", "AISEG2", "day"⟩
    [] (fun _ => 0) (fun _ => 0) "T" "M" _
    (by rw [mainPublishSeq_cons]; exact List.mem_cons_self _ _)

end Aiseg2
